import Mathlib

/-
A shallow embedding of the monki interpreter (src/parser.rs and src/eval.rs),
with theorems checking the natural-language specification against the code.

Conventions:
 - Rust `Option<T>` return values are `Option T`.
 - A Rust panic (`unwrap()` on `None`, slice index out of bounds, integer
   division by zero) is modelled as `Except.error Halt.crashed`.
 - All recursion is fuel-indexed; running out of fuel is `Halt.noFuel`,
   an artifact of the embedding that never occurs for sufficient fuel.
 - Machine integers (`i64`) are modelled as `Int` with explicit two's
   complement wrapping (`wrap64`) on `+`, `-`, `*` and unary `-`
   (the spec, section 4.2, leaves the host overflow behaviour open; the
   release-profile wrapping semantics is chosen).  Division is checked:
   a zero divisor (or `i64::MIN / -1`) panics, as in Rust on any profile.
 - Names follow the source, with renamings forced by the verification
   environment noted next to each definition.
-/

namespace Monki

/-! ### Tokens (contract of the external lexer, as used by parser.rs) -/

inductive KeywordType where
  | Let | Return | True | False | If | Fn | Else
deriving DecidableEq, Repr

inductive TokenType where
  | Eof | Ident | Number | String
  | Assign | Semicolon | Colon | Comma | Period
  | LParen | RParen | LBrace | RBrace | LBracket | RBracket
  | Add | Sub | Mul | Div | Bang | Lt | Gt | Eq | NotEq
  | Keyword (k : KeywordType)
deriving DecidableEq, Repr

structure Token where
  ttype : TokenType
  literal : String
deriving DecidableEq, Repr

/-! ### AST (ast.rs as constructed by parser.rs and consumed by eval.rs) -/

structure Identifier where
  token : Token
  value : String
deriving DecidableEq, Repr

mutual
/-- `ast::Literal`. -/
inductive Literal where
  | Integer (i : Int)
  | Boolean (b : Bool)
  | String (s : String)
  | Array (elems : List Expression)
  | Hash (pairs : List (Expression × Expression))
deriving Repr

/-- `ast::Expression`.  `PrefixOp`, `InfixOp` and `DotAccess` are the source's
`Prefix`, `Infix` and `DotNotation` variants, renamed for this environment. -/
inductive Expression where
  | Literal (lit : Literal)
  | Identifier (iden : Identifier)
  | PrefixOp (token : Token) (operator : String) (right : Expression)
  | InfixOp (token : Token) (left : Expression) (operator : String) (right : Expression)
  | If (token : Token) (condition : Expression) (consequence : List Statement)
       (alternative : Option (List Statement))
  | FunctionLiteral (token : Token) (parameters : List Identifier) (body : List Statement)
  | FunctionCall (token : Token) (function : Expression) (arguments : List Expression)
  | IndexExpression (token : Token) (left : Expression) (index : Expression)
  | DotAccess (token : Token) (left : Expression) (right : Expression)
deriving Repr

/-- `ast::Statement`. -/
inductive Statement where
  | Let (token : Token) (name : Identifier) (value : Expression)
  | ReAssign (token : Token) (name : Identifier) (value : Expression)
  | Return (token : Token) (value : Expression)
  | Expression (token : Token) (value : Expression)
deriving Repr
end

/-- `ast::Program = Vec<Statement>`. -/
abbrev Program := List Statement

/-! ### Halting modes of the embedding -/

/-- `crashed` models a Rust panic; `noFuel` is the fuel artifact. -/
inductive Halt where
  | crashed
  | noFuel
deriving DecidableEq, Repr

/-- Rust `Option::unwrap`: panics on `None`. -/
def unwrapOpt : Option α → Except Halt α
  | some a => .ok a
  | none => .error .crashed

/-! ### Parser state (parser.rs `struct Parser`) -/

structure PState where
  tokens : List Token
  index : Nat
  current : Token
  peek : Token
deriving DecidableEq, Repr

/-- `Parser::new`: indexes `tokens[0]` and `tokens[1]`, panicking when fewer
than two tokens are supplied. -/
def parserNew (tokens : List Token) : Except Halt PState :=
  match tokens.get? 0, tokens.get? 1 with
  | some t0, some t1 => .ok { tokens := tokens, index := 0, current := t0, peek := t1 }
  | _, _ => .error .crashed

/-- `Parser::next_token`: `tokens[index]` panics when out of bounds; the peek
token is left unchanged when `index + 1` is out of bounds. -/
def nextToken (st : PState) : Except Halt PState :=
  let i := st.index + 1
  match st.tokens.get? i with
  | none => .error .crashed
  | some c =>
    let p := match st.tokens.get? (i + 1) with
             | some t => t
             | none => st.peek
    .ok { st with index := i, current := c, peek := p }

/-- `Parser::expect_peek`. -/
def expectPeek (tt : TokenType) (st : PState) : Except Halt (Bool × PState) :=
  if st.peek.ttype = tt then
    match nextToken st with
    | .error h => .error h
    | .ok st' => .ok (true, st')
  else .ok (false, st)

/-- `enum Precedence` (parser.rs); `PrefixOp` is the source's `Prefix`
variant, renamed for this environment. -/
inductive Precedence where
  | Lowest | Equals | LessGreater | Sum | Product | PrefixOp | Call | Index | Dot
deriving DecidableEq, Repr

/-- Declaration-order rank, as produced by Rust's `derive(PartialOrd)`. -/
def Precedence.toNat : Precedence → Nat
  | .Lowest => 0 | .Equals => 1 | .LessGreater => 2 | .Sum => 3 | .Product => 4
  | .PrefixOp => 5 | .Call => 6 | .Index => 7 | .Dot => 8

/-- The `<` comparison on `Precedence` from `derive(PartialOrd)`. -/
def precLt (a b : Precedence) : Bool := a.toNat < b.toNat

/-- `Parser::token_precedence`. -/
def tokenPrecedence (ttype : TokenType) : Precedence :=
  match ttype with
  | .Assign | .NotEq | .Eq => .Equals
  | .Lt | .Gt => .LessGreater
  | .Add | .Sub => .Sum
  | .Div | .Mul => .Product
  | .LParen => .Call
  | .LBracket => .Index
  | .Period => .Dot
  | _ => .Lowest

/-- `Parser::cur_precedence`. -/
def curPrecedence (st : PState) : Precedence := tokenPrecedence st.current.ttype

/-- `Parser::peek_precedence`. -/
def peekPrecedence (st : PState) : Precedence := tokenPrecedence st.peek.ttype

/-- Rust `str::parse::<i64>`: optional sign, at least one digit, nothing
else, rejecting values outside the `i64` range. -/
def rustParseI64 (s : String) : Option Int :=
  let chars := s.data
  let sd : Int × List Char :=
    match chars with
    | '-' :: rest => (-1, rest)
    | '+' :: rest => (1, rest)
    | _ => (1, chars)
  if sd.2 = [] then none
  else if sd.2.all Char.isDigit then
    let n : Nat := sd.2.foldl (fun acc c => acc * 10 + (c.toNat - 48)) 0
    let v : Int := sd.1 * n
    if -(2 ^ 63) ≤ v ∧ v ≤ 2 ^ 63 - 1 then some v else none
  else none

/-- `Parser::parse_boolean`. -/
def parseBoolean (st : PState) : Except Halt (Option Expression × PState) :=
  .ok (some (.Literal (.Boolean (st.current.ttype = TokenType.Keyword KeywordType.True))), st)

/-- `Parser::parse_integer_literal`: `literal.parse::<i64>().unwrap()`
panics when the literal does not fit in an `i64`. -/
def parseIntegerLiteral (st : PState) : Except Halt (Option Expression × PState) :=
  match rustParseI64 st.current.literal with
  | none => .error .crashed
  | some i => .ok (some (.Literal (.Integer i)), st)

/-- `Parser::parse_identifier`. -/
def parseIdentifier (st : PState) : Except Halt (Option Expression × PState) :=
  .ok (some (.Identifier ⟨st.current, st.current.literal⟩), st)

/-- `Parser::parse_string_literal`. -/
def parseStringLiteral (st : PState) : Except Halt (Option Expression × PState) :=
  .ok (some (.Literal (.String st.current.literal)), st)

/-- The `while peek == Comma` loop of `Parser::parse_fn_parameters`. -/
def parseFnParamsLoop (fuel : Nat) (acc : List Identifier) (st : PState) :
    Except Halt (List Identifier × PState) :=
  match fuel with
  | 0 => .error .noFuel
  | f + 1 =>
    if st.peek.ttype = TokenType.Comma then
      match nextToken st with
      | .error h => .error h
      | .ok st1 =>
        match nextToken st1 with
        | .error h => .error h
        | .ok st2 => parseFnParamsLoop f (acc ++ [⟨st2.current, st2.current.literal⟩]) st2
    else .ok (acc, st)

/-- `Parser::parse_fn_parameters`: returns an empty vector when the closing
parenthesis is missing. -/
def parseFnParameters (fuel : Nat) (st : PState) : Except Halt (List Identifier × PState) :=
  if st.peek.ttype = TokenType.RParen then
    match nextToken st with
    | .error h => .error h
    | .ok st' => .ok ([], st')
  else
    match nextToken st with
    | .error h => .error h
    | .ok st1 =>
      match parseFnParamsLoop fuel [⟨st1.current, st1.current.literal⟩] st1 with
      | .error h => .error h
      | .ok (ids, st2) =>
        match expectPeek TokenType.RParen st2 with
        | .error h => .error h
        | .ok (okp, st3) => if okp then .ok (ids, st3) else .ok ([], st3)

/-! ### The parser proper (mutually recursive part of parser.rs) -/

mutual
/-- The `while current != Eof` loop of `Parser::parse_program`; statements
that fail to parse are silently skipped. -/
def parseProgramLoop (fuel : Nat) (acc : List Statement) (st : PState) :
    Except Halt (List Statement × PState) :=
  match fuel with
  | 0 => .error .noFuel
  | f + 1 =>
    if st.current.ttype = TokenType.Eof then .ok (acc, st)
    else
      match parseStatement f st with
      | .error h => .error h
      | .ok (stmt?, st1) =>
        let acc' := match stmt? with
                    | some stmt => acc ++ [stmt]
                    | none => acc
        match nextToken st1 with
        | .error h => .error h
        | .ok st2 => parseProgramLoop f acc' st2

/-- `Parser::parse_statement`. -/
def parseStatement (fuel : Nat) (st : PState) : Except Halt (Option Statement × PState) :=
  match fuel with
  | 0 => .error .noFuel
  | f + 1 =>
    match st.current.ttype with
    | .Keyword .Let => parseLetStatement f st
    | .Keyword .Return => parseReturnStatement f st
    | .Ident =>
      if st.peek.ttype = TokenType.Assign then parseReassignStatement f st
      else parseExpressionStatement f st
    | _ => parseExpressionStatement f st

/-- `Parser::parse_reassign_statement`: `parse_expression(..).unwrap()`
panics when the value expression fails to parse. -/
def parseReassignStatement (fuel : Nat) (st : PState) : Except Halt (Option Statement × PState) :=
  match fuel with
  | 0 => .error .noFuel
  | f + 1 =>
    let name : Identifier := ⟨st.current, st.current.literal⟩
    match expectPeek TokenType.Assign st with
    | .error h => .error h
    | .ok (false, st1) => .ok (none, st1)
    | .ok (true, st1) =>
      match nextToken st1 with
      | .error h => .error h
      | .ok st2 =>
        match parseExpression f Precedence.Lowest st2 with
        | .error h => .error h
        | .ok (v?, st3) =>
          match unwrapOpt v? with
          | .error h => .error h
          | .ok v =>
            match (if st3.peek.ttype = TokenType.Semicolon then nextToken st3 else .ok st3) with
            | .error h => .error h
            | .ok st4 => .ok (some (.ReAssign st4.current name v), st4)

/-- `Parser::parse_expression`: prefix dispatch on the current token, then
the infix loop. -/
def parseExpression (fuel : Nat) (precedence : Precedence) (st : PState) :
    Except Halt (Option Expression × PState) :=
  match fuel with
  | 0 => .error .noFuel
  | f + 1 =>
    let pre : Except Halt (Option Expression × PState) :=
      match st.current.ttype with
      | .Ident => parseIdentifier st
      | .String => parseStringLiteral st
      | .Number => parseIntegerLiteral st
      | .Bang | .Sub => parsePrefixExpression f st
      | .Keyword .True | .Keyword .False => parseBoolean st
      | .LBrace => parseHashExpr f st
      | .LParen => parseGroupExpr f st
      | .LBracket => parseArrayLiteral f st
      | .Keyword .If => parseIfExpr f st
      | .Keyword .Fn => parseFnLiteral f st
      | _ => .ok (none, st)
    match st.current.ttype with
    | .Ident | .String | .Number | .Bang | .Sub | .Keyword .True | .Keyword .False
    | .LBrace | .LParen | .LBracket | .Keyword .If | .Keyword .Fn =>
      match pre with
      | .error h => .error h
      | .ok (left, st1) => parseExprLoop f precedence left st1
    | _ => .ok (none, st)

/-- The `while peek != Semicolon && precedence < peek_precedence` infix loop
of `Parser::parse_expression`; `left.unwrap()` panics when the pending left
expression is absent. -/
def parseExprLoop (fuel : Nat) (precedence : Precedence) (left : Option Expression)
    (st : PState) : Except Halt (Option Expression × PState) :=
  match fuel with
  | 0 => .error .noFuel
  | f + 1 =>
    if st.peek.ttype != TokenType.Semicolon && precLt precedence (peekPrecedence st) then
      match nextToken st with
      | .error h => .error h
      | .ok st1 =>
        match st1.current.ttype with
        | .Add | .Assign | .Div | .Gt | .Lt | .Mul | .NotEq | .Eq | .Sub =>
          match unwrapOpt left with
          | .error h => .error h
          | .ok l =>
            match parseInfixExpression f l st1 with
            | .error h => .error h
            | .ok (newLeft, st2) => parseExprLoop f precedence newLeft st2
        | .LParen =>
          match unwrapOpt left with
          | .error h => .error h
          | .ok l =>
            match parseFnCall f l st1 with
            | .error h => .error h
            | .ok (newLeft, st2) => parseExprLoop f precedence newLeft st2
        | .LBracket =>
          match unwrapOpt left with
          | .error h => .error h
          | .ok l =>
            match parseIndexExpression f l st1 with
            | .error h => .error h
            | .ok (newLeft, st2) => parseExprLoop f precedence newLeft st2
        | .Period =>
          match unwrapOpt left with
          | .error h => .error h
          | .ok l =>
            match parseDotAccess f l st1 with
            | .error h => .error h
            | .ok (newLeft, st2) => parseExprLoop f precedence newLeft st2
        | _ => .ok (left, st1)
    else .ok (left, st)

/-- `Parser::parse_dot_notation`, renamed for this environment. -/
def parseDotAccess (fuel : Nat) (left : Expression) (st : PState) :
    Except Halt (Option Expression × PState) :=
  match fuel with
  | 0 => .error .noFuel
  | f + 1 =>
    match nextToken st with
    | .error h => .error h
    | .ok st1 =>
      match parseExpression f Precedence.Dot st1 with
      | .error h => .error h
      | .ok (some right, st2) => .ok (some (.DotAccess st2.current left right), st2)
      | .ok (none, st2) => .ok (none, st2)

/-- `Parser::parse_fn_call`. -/
def parseFnCall (fuel : Nat) (function : Expression) (st : PState) :
    Except Halt (Option Expression × PState) :=
  match fuel with
  | 0 => .error .noFuel
  | f + 1 =>
    match parseFnArguments f st with
    | .error h => .error h
    | .ok (args, st1) => .ok (some (.FunctionCall st.current function args), st1)

/-- The `while peek != RBrace` loop of `Parser::parse_hash_expr`; the key and
value `unwrap()`s panic when a pair expression fails to parse. -/
def parseHashPairsLoop (fuel : Nat) (acc : List (Expression × Expression)) (st : PState) :
    Except Halt (Option (List (Expression × Expression)) × PState) :=
  match fuel with
  | 0 => .error .noFuel
  | f + 1 =>
    if st.peek.ttype = TokenType.RBrace then .ok (some acc, st)
    else
      match nextToken st with
      | .error h => .error h
      | .ok st1 =>
        match parseExpression f Precedence.Lowest st1 with
        | .error h => .error h
        | .ok (k?, st2) =>
          match unwrapOpt k? with
          | .error h => .error h
          | .ok k =>
            match expectPeek TokenType.Colon st2 with
            | .error h => .error h
            | .ok (false, st3) => .ok (none, st3)
            | .ok (true, st3) =>
              match nextToken st3 with
              | .error h => .error h
              | .ok st4 =>
                match parseExpression f Precedence.Lowest st4 with
                | .error h => .error h
                | .ok (v?, st5) =>
                  match unwrapOpt v? with
                  | .error h => .error h
                  | .ok v =>
                    if st5.peek.ttype = TokenType.RBrace then
                      parseHashPairsLoop f (acc ++ [(k, v)]) st5
                    else
                      match expectPeek TokenType.Comma st5 with
                      | .error h => .error h
                      | .ok (false, st6) => .ok (none, st6)
                      | .ok (true, st6) => parseHashPairsLoop f (acc ++ [(k, v)]) st6

/-- `Parser::parse_hash_expr`. -/
def parseHashExpr (fuel : Nat) (st : PState) : Except Halt (Option Expression × PState) :=
  match fuel with
  | 0 => .error .noFuel
  | f + 1 =>
    match parseHashPairsLoop f [] st with
    | .error h => .error h
    | .ok (none, st1) => .ok (none, st1)
    | .ok (some pairs, st1) =>
      match expectPeek TokenType.RBrace st1 with
      | .error h => .error h
      | .ok (false, st2) => .ok (none, st2)
      | .ok (true, st2) => .ok (some (.Literal (.Hash pairs)), st2)

/-- `Parser::parse_index_expression`: `index.unwrap()` panics when the index
expression fails to parse (after `expect_peek` succeeded). -/
def parseIndexExpression (fuel : Nat) (left : Expression) (st : PState) :
    Except Halt (Option Expression × PState) :=
  match fuel with
  | 0 => .error .noFuel
  | f + 1 =>
    match nextToken st with
    | .error h => .error h
    | .ok st1 =>
      match parseExpression f Precedence.Lowest st1 with
      | .error h => .error h
      | .ok (index?, st2) =>
        match expectPeek TokenType.RBracket st2 with
        | .error h => .error h
        | .ok (false, st3) => .ok (none, st3)
        | .ok (true, st3) =>
          match unwrapOpt index? with
          | .error h => .error h
          | .ok index => .ok (some (.IndexExpression st3.current left index), st3)

/-- `Parser::parse_array_literal`. -/
def parseArrayLiteral (fuel : Nat) (st : PState) : Except Halt (Option Expression × PState) :=
  match fuel with
  | 0 => .error .noFuel
  | f + 1 =>
    match parseArrayElements f st with
    | .error h => .error h
    | .ok (elems, st1) => .ok (some (.Literal (.Array elems)), st1)

/-- The `while peek == Comma` loop of `Parser::parse_array_elements`. -/
def parseArrayElemsLoop (fuel : Nat) (acc : List Expression) (st : PState) :
    Except Halt (List Expression × PState) :=
  match fuel with
  | 0 => .error .noFuel
  | f + 1 =>
    if st.peek.ttype = TokenType.Comma then
      match nextToken st with
      | .error h => .error h
      | .ok st1 =>
        match nextToken st1 with
        | .error h => .error h
        | .ok st2 =>
          match parseExpression f Precedence.Lowest st2 with
          | .error h => .error h
          | .ok (e?, st3) =>
            match unwrapOpt e? with
            | .error h => .error h
            | .ok e => parseArrayElemsLoop f (acc ++ [e]) st3
    else .ok (acc, st)

/-- `Parser::parse_array_elements`: element `unwrap()`s panic on a failed
element parse; a missing closing bracket yields an empty vector. -/
def parseArrayElements (fuel : Nat) (st : PState) : Except Halt (List Expression × PState) :=
  match fuel with
  | 0 => .error .noFuel
  | f + 1 =>
    if st.peek.ttype = TokenType.RBracket then
      match nextToken st with
      | .error h => .error h
      | .ok st' => .ok ([], st')
    else
      match nextToken st with
      | .error h => .error h
      | .ok st1 =>
        match parseExpression f Precedence.Lowest st1 with
        | .error h => .error h
        | .ok (e?, st2) =>
          match unwrapOpt e? with
          | .error h => .error h
          | .ok e =>
            match parseArrayElemsLoop f [e] st2 with
            | .error h => .error h
            | .ok (elems, st3) =>
              match expectPeek TokenType.RBracket st3 with
              | .error h => .error h
              | .ok (false, st4) => .ok ([], st4)
              | .ok (true, st4) => .ok (elems, st4)

/-- `Parser::parse_fn_arguments` (same shape as `parse_array_elements` with
parentheses). -/
def parseFnArgsLoop (fuel : Nat) (acc : List Expression) (st : PState) :
    Except Halt (List Expression × PState) :=
  match fuel with
  | 0 => .error .noFuel
  | f + 1 =>
    if st.peek.ttype = TokenType.Comma then
      match nextToken st with
      | .error h => .error h
      | .ok st1 =>
        match nextToken st1 with
        | .error h => .error h
        | .ok st2 =>
          match parseExpression f Precedence.Lowest st2 with
          | .error h => .error h
          | .ok (e?, st3) =>
            match unwrapOpt e? with
            | .error h => .error h
            | .ok e => parseFnArgsLoop f (acc ++ [e]) st3
    else .ok (acc, st)

/-- `Parser::parse_fn_arguments`. -/
def parseFnArguments (fuel : Nat) (st : PState) : Except Halt (List Expression × PState) :=
  match fuel with
  | 0 => .error .noFuel
  | f + 1 =>
    if st.peek.ttype = TokenType.RParen then
      match nextToken st with
      | .error h => .error h
      | .ok st' => .ok ([], st')
    else
      match nextToken st with
      | .error h => .error h
      | .ok st1 =>
        match parseExpression f Precedence.Lowest st1 with
        | .error h => .error h
        | .ok (e?, st2) =>
          match unwrapOpt e? with
          | .error h => .error h
          | .ok e =>
            match parseFnArgsLoop f [e] st2 with
            | .error h => .error h
            | .ok (args, st3) =>
              match expectPeek TokenType.RParen st3 with
              | .error h => .error h
              | .ok (false, st4) => .ok ([], st4)
              | .ok (true, st4) => .ok (args, st4)

/-- `Parser::parse_fn_literal`. -/
def parseFnLiteral (fuel : Nat) (st : PState) : Except Halt (Option Expression × PState) :=
  match fuel with
  | 0 => .error .noFuel
  | f + 1 =>
    let token := st.current
    match expectPeek TokenType.LParen st with
    | .error h => .error h
    | .ok (false, st1) => .ok (none, st1)
    | .ok (true, st1) =>
      match parseFnParameters f st1 with
      | .error h => .error h
      | .ok (parameters, st2) =>
        match expectPeek TokenType.LBrace st2 with
        | .error h => .error h
        | .ok (false, st3) => .ok (none, st3)
        | .ok (true, st3) =>
          match parseBlockStatement f st3 with
          | .error h => .error h
          | .ok (body, st4) => .ok (some (.FunctionLiteral token parameters body), st4)

/-- `Parser::parse_if_expr`: `condition.unwrap()` panics (at `If`
construction time) when the condition failed to parse. -/
def parseIfExpr (fuel : Nat) (st : PState) : Except Halt (Option Expression × PState) :=
  match fuel with
  | 0 => .error .noFuel
  | f + 1 =>
    let token := st.current
    match nextToken st with
    | .error h => .error h
    | .ok st1 =>
      match parseExpression f Precedence.Lowest st1 with
      | .error h => .error h
      | .ok (condition?, st2) =>
        match expectPeek TokenType.LBrace st2 with
        | .error h => .error h
        | .ok (false, st3) => .ok (none, st3)
        | .ok (true, st3) =>
          match parseBlockStatement f st3 with
          | .error h => .error h
          | .ok (consequence, st4) =>
            match (if st4.peek.ttype = TokenType.Keyword KeywordType.Else then
                     match nextToken st4 with
                     | .error h => .error h
                     | .ok st5 =>
                       match expectPeek TokenType.LBrace st5 with
                       | .error h => .error h
                       | .ok (false, st6) => .ok (none, st6)
                       | .ok (true, st6) =>
                         match parseBlockStatement f st6 with
                         | .error h => .error h
                         | .ok (alt, st7) => .ok (some (some alt), st7)
                   else .ok (some none, st4) :
                     Except Halt (Option (Option (List Statement)) × PState)) with
            | .error h => .error h
            | .ok (none, st8) => .ok (none, st8)
            | .ok (some alternative, st8) =>
              match unwrapOpt condition? with
              | .error h => .error h
              | .ok condition =>
                .ok (some (.If token condition consequence alternative), st8)

/-- `Parser::parse_block_statement`: parses until `}` or end of input,
skipping statements that fail to parse. -/
def parseBlockStatement (fuel : Nat) (st : PState) : Except Halt (List Statement × PState) :=
  match fuel with
  | 0 => .error .noFuel
  | f + 1 =>
    match nextToken st with
    | .error h => .error h
    | .ok st1 => parseBlockLoop f [] st1

/-- The statement loop of `Parser::parse_block_statement`. -/
def parseBlockLoop (fuel : Nat) (acc : List Statement) (st : PState) :
    Except Halt (List Statement × PState) :=
  match fuel with
  | 0 => .error .noFuel
  | f + 1 =>
    if st.current.ttype = TokenType.RBrace ∨ st.current.ttype = TokenType.Eof then
      .ok (acc, st)
    else
      match parseStatement f st with
      | .error h => .error h
      | .ok (stmt?, st1) =>
        let acc' := match stmt? with
                    | some stmt => acc ++ [stmt]
                    | none => acc
        match nextToken st1 with
        | .error h => .error h
        | .ok st2 => parseBlockLoop f acc' st2

/-- `Parser::parse_group_expr`. -/
def parseGroupExpr (fuel : Nat) (st : PState) : Except Halt (Option Expression × PState) :=
  match fuel with
  | 0 => .error .noFuel
  | f + 1 =>
    match nextToken st with
    | .error h => .error h
    | .ok st1 =>
      match parseExpression f Precedence.Lowest st1 with
      | .error h => .error h
      | .ok (expr, st2) =>
        match expectPeek TokenType.RParen st2 with
        | .error h => .error h
        | .ok (false, st3) => .ok (none, st3)
        | .ok (true, st3) => .ok (expr, st3)

/-- `Parser::parse_infix_expression`. -/
def parseInfixExpression (fuel : Nat) (left : Expression) (st : PState) :
    Except Halt (Option Expression × PState) :=
  match fuel with
  | 0 => .error .noFuel
  | f + 1 =>
    let operator := st.current.literal
    let precedence := curPrecedence st
    match nextToken st with
    | .error h => .error h
    | .ok st1 =>
      match parseExpression f precedence st1 with
      | .error h => .error h
      | .ok (some right, st2) => .ok (some (.InfixOp st2.current left operator right), st2)
      | .ok (none, st2) => .ok (none, st2)

/-- `Parser::parse_prefix_expression`. -/
def parsePrefixExpression (fuel : Nat) (st : PState) : Except Halt (Option Expression × PState) :=
  match fuel with
  | 0 => .error .noFuel
  | f + 1 =>
    let operator := st.current.literal
    match nextToken st with
    | .error h => .error h
    | .ok st1 =>
      match parseExpression f Precedence.PrefixOp st1 with
      | .error h => .error h
      | .ok (some right, st2) => .ok (some (.PrefixOp st2.current operator right), st2)
      | .ok (none, st2) => .ok (none, st2)

/-- `Parser::parse_expression_statement`. -/
def parseExpressionStatement (fuel : Nat) (st : PState) :
    Except Halt (Option Statement × PState) :=
  match fuel with
  | 0 => .error .noFuel
  | f + 1 =>
    match parseExpression f Precedence.Lowest st with
    | .error h => .error h
    | .ok (expr, st1) =>
      match (if st1.peek.ttype = TokenType.Semicolon then nextToken st1 else .ok st1) with
      | .error h => .error h
      | .ok st2 =>
        match expr with
        | some e => .ok (some (.Expression st2.current e), st2)
        | none => .ok (none, st2)

/-- `Parser::parse_return_statement`: `parse_expression(..).unwrap()` panics
when the value expression fails to parse. -/
def parseReturnStatement (fuel : Nat) (st : PState) : Except Halt (Option Statement × PState) :=
  match fuel with
  | 0 => .error .noFuel
  | f + 1 =>
    let token := st.current
    match nextToken st with
    | .error h => .error h
    | .ok st1 =>
      match parseExpression f Precedence.Lowest st1 with
      | .error h => .error h
      | .ok (v?, st2) =>
        match unwrapOpt v? with
        | .error h => .error h
        | .ok v =>
          match (if st2.peek.ttype = TokenType.Semicolon then nextToken st2 else .ok st2) with
          | .error h => .error h
          | .ok st3 => .ok (some (.Return token v), st3)

/-- `Parser::parse_let_statement`: `parse_expression(..).unwrap()` panics
when the value expression fails to parse. -/
def parseLetStatement (fuel : Nat) (st : PState) : Except Halt (Option Statement × PState) :=
  match fuel with
  | 0 => .error .noFuel
  | f + 1 =>
    match expectPeek TokenType.Ident st with
    | .error h => .error h
    | .ok (false, st1) => .ok (none, st1)
    | .ok (true, st1) =>
      let name : Identifier := ⟨st1.current, st1.current.literal⟩
      match expectPeek TokenType.Assign st1 with
      | .error h => .error h
      | .ok (false, st2) => .ok (none, st2)
      | .ok (true, st2) =>
        match nextToken st2 with
        | .error h => .error h
        | .ok st3 =>
          match parseExpression f Precedence.Lowest st3 with
          | .error h => .error h
          | .ok (v?, st4) =>
            match unwrapOpt v? with
            | .error h => .error h
            | .ok v =>
              match (if st4.peek.ttype = TokenType.Semicolon then nextToken st4 else .ok st4) with
              | .error h => .error h
              | .ok st5 => .ok (some (.Let st5.current name v), st5)
end

/-- `Parser::parse_program` starting from a freshly constructed parser,
projecting out the program. -/
def runParse (fuel : Nat) (toks : List Token) : Except Halt Program :=
  match parserNew toks with
  | .error h => .error h
  | .ok st =>
    match parseProgramLoop fuel [] st with
    | .error h => .error h
    | .ok (prog, _) => .ok prog

/-! ### Runtime values (object.rs, as given by spec section 3 and the
pattern matches of eval.rs) -/

/-- `object::Object`.  Environments are shared by reference
(`Rc<RefCell<Env>>` in the source); the embedding realises sharing with an
arena of frames, so an environment reference is an index into the arena. -/
inductive Obj where
  | Integer (i : Int)
  | Boolean (b : Bool)
  | String (s : String)
  | Array (elems : List Obj)
  | Hash (pairs : List (Obj × Obj))
  | Function (parameters : List Identifier) (body : List Statement) (env : Nat)
  | BuiltinFunction (name : String)
  | Return (inner : Obj)
  | Error (msg : String)
  | Empty
  | Null
deriving Repr

/-- One environment frame (`env::Env`): local bindings plus an optional
parent reference into the arena. -/
structure Frame where
  vars : List (String × Obj)
  parent : Option Nat
deriving Repr

/-- The evaluator state: the arena of all allocated frames, the index of the
currently active environment (`Evaluator::env`), and the `println!` log of
reported error messages, oldest first. -/
structure EvalState where
  frames : List Frame
  cur : Nat
  log : List String
deriving Repr

/-- `Evaluator::new`: a single empty root environment. -/
def initState : EvalState := { frames := [{ vars := [], parent := none }], cur := 0, log := [] }

/-- First-match lookup in one frame's bindings. -/
def lookupVar : List (String × Obj) → String → Option Obj
  | [], _ => none
  | (k, v) :: rest, n => if k = n then some v else lookupVar rest n

/-- Modelled from the spec: `env.rs` is not under src/.  Spec section 4.3:
`get(name)` walks the parent chain outward until found or exhausted.  The
walk is fuel-bounded by the arena size (parents always point to
earlier-allocated frames, so this bound is never hit). -/
def envGetGo (frames : List Frame) (fuel : Nat) (e : Nat) (n : String) : Option Obj :=
  match fuel with
  | 0 => none
  | f + 1 =>
    match frames.get? e with
    | none => none
    | some fr =>
      match lookupVar fr.vars n with
      | some v => some v
      | none =>
        match fr.parent with
        | none => none
        | some p => envGetGo frames f p n

/-- `Env::get` on the environment `e` of state `st`. -/
def envGet (st : EvalState) (e : Nat) (n : String) : Option Obj :=
  envGetGo st.frames (st.frames.length + 1) e n

/-- Modelled from the spec: `env.rs` is not under src/.  Spec section 4.3:
`set(name, value)` always writes into the local frame (shadowing, never
mutating an ancestor). -/
def frameSet (fr : Frame) (n : String) (v : Obj) : Frame :=
  { fr with vars := (n, v) :: fr.vars }

/-- `Env::set` on the environment `e` of state `st`. -/
def envSet (st : EvalState) (e : Nat) (n : String) (v : Obj) : EvalState :=
  match st.frames.get? e with
  | some fr => { st with frames := st.frames.set e (frameSet fr n v) }
  | none => st

/-- Modelled from the spec: the Builtin Registry (builtin.rs) is an external
collaborator (spec sections 1 and 6); its contents are outside the CORE, so
it is taken to be the empty table here.  No claim depends on a particular
builtin. -/
def builtins : List (String × Obj) := []

/-- Modelled from the spec: `builtin::dot_str_builtins`, the external
name-to-accessor table for String dot notation (empty here, see `builtins`). -/
def dotStrBuiltins (_s : String) (_name : String) : Option Obj := none

/-- Modelled from the spec: invocation of a native builtin function (none
exist in the empty registry, so this is unreachable). -/
def applyBuiltin (_name : String) (_args : List Obj) : Obj :=
  Obj.Error "unknown builtin"

/-! ### Renderings.  ast.rs / object.rs `Display` and `Debug` instances are
not under src/; spec section 6 fixes the `Display` contract, which is used
below for the hash dot-notation key comparison and, as a stand-in for the
derived `Debug` text, for the could-not-evaluate diagnostic. -/

mutual
/-- Modelled from the spec (section 6): the textual rendering of an
expression. -/
def renderExpr (fuel : Nat) (e : Expression) : String :=
  match fuel with
  | 0 => ""
  | f + 1 =>
    match e with
    | .Literal lit => renderLit f lit
    | .Identifier iden => iden.value
    | .PrefixOp _ operator right => "(" ++ operator ++ renderExpr f right ++ ")"
    | .InfixOp _ left operator right =>
      "(" ++ renderExpr f left ++ " " ++ operator ++ " " ++ renderExpr f right ++ ")"
    | .If _ condition consequence alternative =>
      "(" ++ renderExpr f condition ++ " \x7b" ++ renderStmts f consequence ++ "\x7d" ++
        (match alternative with
         | some alt => " else \x7b" ++ renderStmts f alt ++ "\x7d"
         | none => "") ++ ")"
    | .FunctionLiteral _ parameters body =>
      "fn(" ++ String.intercalate ", " (parameters.map Identifier.value) ++ ") \x7b" ++
        renderStmts f body ++ "\x7d"
    | .FunctionCall _ function arguments =>
      renderExpr f function ++ "(" ++
        String.intercalate ", " (arguments.map (renderExpr f)) ++ ")"
    | .IndexExpression _ left index =>
      "(" ++ renderExpr f left ++ "[" ++ renderExpr f index ++ "])"
    | .DotAccess _ left right => renderExpr f left ++ "." ++ renderExpr f right

/-- Modelled from the spec (section 6): the textual rendering of a literal. -/
def renderLit (fuel : Nat) (lit : Literal) : String :=
  match fuel with
  | 0 => ""
  | f + 1 =>
    match lit with
    | .Integer i => toString i
    | .Boolean b => toString b
    | .String s => s
    | .Array elems => "[" ++ String.intercalate ", " (elems.map (renderExpr f)) ++ "]"
    | .Hash pairs =>
      "\x7b" ++
        String.intercalate ", "
          (pairs.map (fun kv => renderExpr f kv.1 ++ ": " ++ renderExpr f kv.2)) ++ "\x7d"

/-- Modelled from the spec (section 6): the textual rendering of a
statement. -/
def renderStmt (fuel : Nat) (s : Statement) : String :=
  match fuel with
  | 0 => ""
  | f + 1 =>
    match s with
    | .Let _ name value => "let " ++ name.value ++ " = " ++ renderExpr f value ++ ";"
    | .ReAssign _ name value => name.value ++ " = " ++ renderExpr f value ++ ";"
    | .Return _ value => "return " ++ renderExpr f value ++ ";"
    | .Expression _ value => renderExpr f value

/-- Rendering of a statement list as `[s1 s2 ...]`. -/
def renderStmts (fuel : Nat) (stmts : List Statement) : String :=
  match fuel with
  | 0 => ""
  | f + 1 => "[" ++ String.intercalate " " (stmts.map (renderStmt f)) ++ "]"
end

/-- Modelled from the spec: a stand-in for object.rs's `Display`. -/
def renderObj (fuel : Nat) (o : Obj) : String :=
  match fuel with
  | 0 => ""
  | f + 1 =>
    match o with
    | .Integer i => toString i
    | .Boolean b => toString b
    | .String s => s
    | .Array elems => "[" ++ String.intercalate ", " (elems.map (renderObj f)) ++ "]"
    | .Hash pairs =>
      "\x7b" ++
        String.intercalate ", "
          (pairs.map (fun kv => renderObj f kv.1 ++ ": " ++ renderObj f kv.2)) ++ "\x7d"
    | .Function parameters _ _ =>
      "fn(" ++ String.intercalate ", " (parameters.map Identifier.value) ++ ")"
    | .BuiltinFunction n => n
    | .Return inner => renderObj f inner
    | .Error msg => msg
    | .Empty => ""
    | .Null => "null"

/-- The message of `Evaluator::new_error` for a statement that fails to
evaluate: `format!("Could not evaluate statement: {:?}", stmt)` (the exact
`Debug` text is stood in for by the section-6 rendering). -/
def couldNotEvalMsg (stmt : Statement) : String :=
  "Could not evaluate statement: " ++ renderStmt 1000 stmt

/-! ### Integer arithmetic: `i64` with explicit wrapping -/

/-- Two's complement wrap into the `i64` range. -/
def wrap64 (x : Int) : Int := (x + 2 ^ 63).emod (2 ^ 64) - 2 ^ 63

/-- `i64::MIN`. -/
def i64Min : Int := -(2 ^ 63)

/-- `Evaluator::eval_integer_infix_expression`.  Rust's `/` on `i64` panics
on a zero divisor and on `i64::MIN / -1`; otherwise it truncates toward
zero (`Int.tdiv`). -/
def evalIntegerInfixExpression (l : Int) (operator : String) (r : Int) :
    Except Halt (Option Obj) :=
  if operator = "+" then .ok (some (Obj.Integer (wrap64 (l + r))))
  else if operator = "-" then .ok (some (Obj.Integer (wrap64 (l - r))))
  else if operator = "*" then .ok (some (Obj.Integer (wrap64 (l * r))))
  else if operator = "/" then
    if r = 0 ∨ (l = i64Min ∧ r = -1) then .error .crashed
    else .ok (some (Obj.Integer (Int.tdiv l r)))
  else if operator = "<" then .ok (some (Obj.Boolean (decide (l < r))))
  else if operator = ">" then .ok (some (Obj.Boolean (decide (r < l))))
  else if operator = "==" then .ok (some (Obj.Boolean (decide (l = r))))
  else if operator = "!=" then .ok (some (Obj.Boolean (decide (l ≠ r))))
  else .ok (some (Obj.Error ("Invalid operator: " ++ operator)))

/-- `Evaluator::eval_boolean_infix_expression`. -/
def evalBooleanInfixExpression (l : Bool) (operator : String) (r : Bool) : Option Obj :=
  if operator = "==" then some (Obj.Boolean (decide (l = r)))
  else if operator = "!=" then some (Obj.Boolean (decide (l ≠ r)))
  else some (Obj.Error ("Invalid operator: " ++ operator))

/-- `Evaluator::eval_string_infix_expression`. -/
def evalStringInfixExpression (l : String) (operator : String) (r : String) : Option Obj :=
  if operator = "+" then some (Obj.String (l ++ r))
  else if operator = "==" then some (Obj.Boolean (decide (l = r)))
  else if operator = "!=" then some (Obj.Boolean (decide (l ≠ r)))
  else some (Obj.Error ("Invalid operator: " ++ operator))

/-- `Evaluator::eval_bang_prefix` (renamed for this environment). -/
def evalBangOp : Obj → Option Obj
  | Obj.Boolean b => some (Obj.Boolean (!b))
  | _ => some (Obj.Error "Use ! prefix operator on booleans!")

/-- `Evaluator::eval_minus_prefix` (renamed for this environment). -/
def evalMinusOp : Obj → Option Obj
  | Obj.Integer i => some (Obj.Integer (wrap64 (-i)))
  | _ => some (Obj.Error "Use - prefix operator on integers or floats")

/-! ### Indexing -/

/-- `Iterator::nth_back(k)`: the `k`-th element from the end, if any. -/
def nthBack (l : List α) (k : Nat) : Option α :=
  if k < l.length then l.get? (l.length - 1 - k) else none

/-- UTF-8 encoded size of one Unicode scalar value (Rust `char::len_utf8`). -/
def charUtf8Size (c : Char) : Nat :=
  if c.val < 0x80 then 1 else if c.val < 0x800 then 2 else if c.val < 0x10000 then 3 else 4

/-- Rust `str::len`: the UTF-8 byte length. -/
def utf8Len (s : String) : Nat := (s.data.map charUtf8Size).sum

/-- The `(Object::Array, Object::Integer)` arm of
`Evaluator::eval_index_expression`.  For `int <= -1` with no `nth_back`
element the code falls through to `arr[int as usize]`, whose huge wrapped
cast makes the slice index panic. -/
def arrayIndexOp (arr : List Obj) (int : Int) : Except Halt (Option Obj) :=
  match (if int ≤ -1 then nthBack arr (int.natAbs - 1) else none) with
  | some item => .ok (some item)
  | none =>
    if (arr.length : Int) ≤ int then .ok (some Obj.Null)
    else
      match arr.get? (if 0 ≤ int then int.toNat else ((2 : Int) ^ 64 + int).toNat) with
      | some v => .ok (some v)
      | none => .error .crashed

/-- The `(Object::String, Object::Integer)` arm of
`Evaluator::eval_index_expression`: `chars()` positions for retrieval but
the byte length `str.len()` for the at-or-beyond-length check; when every
check falls through the overall result is absent (`none`). -/
def stringIndexOp (s : String) (int : Int) : Option Obj :=
  let cs := s.data
  match (if int ≤ -1 then nthBack cs (int.natAbs - 1) else none) with
  | some c => some (Obj.String (String.mk [c]))
  | none =>
    if (utf8Len s : Int) ≤ int then some Obj.Null
    else
      match (if 0 ≤ int then cs.get? int.toNat else none) with
      | some c => some (Obj.String (String.mk [c]))
      | none => none

/-- Linear key-equality scan over a hash's pairs (String keys only). -/
def hashLookup : List (Obj × Obj) → String → Option Obj
  | [], _ => none
  | (k, v) :: rest, key =>
    match k with
    | Obj.String k' => if k' = key then some v else hashLookup rest key
    | _ => hashLookup rest key

/-- The type-dispatch match of `Evaluator::eval_index_expression`, applied
to the two already-evaluated operands. -/
def indexOperation : Obj → Obj → Except Halt (Option Obj)
  | Obj.Array arr, Obj.Integer int => arrayIndexOp arr int
  | Obj.String s, Obj.Integer int => .ok (stringIndexOp s int)
  | Obj.Hash pairs, Obj.String key =>
    .ok (some (match hashLookup pairs key with | some v => v | none => Obj.Null))
  | _, _ => .ok (some (Obj.Error "Use index expression on arrays or strings"))

/-- `Evaluator::eval_dot_expr`. -/
def evalDotExpr : Expression → Option (String × Option Expression × Option (List Expression))
  | .Identifier iden => some (iden.value, none, none)
  | .FunctionCall token function arguments => some (token.literal, some function, some arguments)
  | _ => none

/-- `Evaluator::eval_identifier`: environment chain first, then the builtin
registry, then an error value. -/
def evalIdentifier (iden : Identifier) (st : EvalState) :
    Except Halt (Option Obj × EvalState) :=
  match envGet st st.cur iden.value with
  | some v => .ok (some v, st)
  | none =>
    match lookupVar builtins iden.value with
    | some b => .ok (some b, st)
    | none => .ok (some (Obj.Error ("Identifier not found (eval_identifier): " ++ iden.value)), st)

/-- Parameter binding of `Evaluator::eval_function_call`: sequential
`set`s of the zipped parameter/argument pairs into the fresh frame. -/
def bindParams (parameters : List Identifier) (args : List Obj) : List (String × Obj) :=
  (parameters.zip args).foldl (fun vars pa => (pa.1.value, pa.2) :: vars) []

/-- The environment switch of `Evaluator::eval_function_call`: allocate a
fresh child frame of the captured environment `env` with the parameters
bound, and make it current. -/
def pushCallFrame (st : EvalState) (env : Nat) (parameters : List Identifier)
    (args : List Obj) : EvalState :=
  { st with frames := st.frames ++ [{ vars := bindParams parameters args, parent := some env }],
            cur := st.frames.length }

/-- The arity-mismatch message of `Evaluator::eval_function_call`. -/
def arityMsg (expected got : Nat) : String :=
  "Wrong number of arguments. Expected " ++ toString expected ++ ", got " ++ toString got

/-! ### The evaluator proper (mutually recursive part of eval.rs) -/

mutual
/-- The statement loop of `Evaluator::eval` (top level): a `Return` result
stops the loop and its unwrapped payload is returned; an `Error` result is
printed and the loop continues; an absent result stops the loop with a
synthetic error value; any other result becomes the running result. -/
def evalTopLoop (fuel : Nat) (stmts : List Statement) (result : Option Obj)
    (st : EvalState) : Except Halt (Option Obj × EvalState) :=
  match fuel with
  | 0 => .error .noFuel
  | f + 1 =>
    match stmts with
    | [] => .ok (result, st)
    | stmt :: rest =>
      match evalStatement f stmt st with
      | .error h => .error h
      | .ok (some (Obj.Return o), st') => .ok (some o, st')
      | .ok (some (Obj.Error m), st') =>
        evalTopLoop f rest result { st' with log := st'.log ++ [m] }
      | .ok (some o, st') => evalTopLoop f rest (some o) st'
      | .ok (none, st') => .ok (some (Obj.Error (couldNotEvalMsg stmt)), st')

/-- `Evaluator::eval_block_statement`: identical to the top-level loop
except that a `Return` result is propagated still wrapped. -/
def evalBlockLoop (fuel : Nat) (stmts : List Statement) (result : Option Obj)
    (st : EvalState) : Except Halt (Option Obj × EvalState) :=
  match fuel with
  | 0 => .error .noFuel
  | f + 1 =>
    match stmts with
    | [] => .ok (result, st)
    | stmt :: rest =>
      match evalStatement f stmt st with
      | .error h => .error h
      | .ok (some (Obj.Return o), st') => .ok (some (Obj.Return o), st')
      | .ok (some (Obj.Error m), st') =>
        evalBlockLoop f rest result { st' with log := st'.log ++ [m] }
      | .ok (some o, st') => evalBlockLoop f rest (some o) st'
      | .ok (none, st') => .ok (some (Obj.Error (couldNotEvalMsg stmt)), st')

/-- `Evaluator::eval_statement`. -/
def evalStatement (fuel : Nat) (stmt : Statement) (st : EvalState) :
    Except Halt (Option Obj × EvalState) :=
  match fuel with
  | 0 => .error .noFuel
  | f + 1 =>
    match stmt with
    | .Expression _ value => evalExpression f value st
    | .Return _ value => evalReturn f value st
    | .Let _ name value =>
      match evalExpression f value st with
      | .error h => .error h
      | .ok (none, st') => .ok (none, st')
      | .ok (some v, st') => .ok (some Obj.Empty, envSet st' st'.cur name.value v)
    | .ReAssign _ name value => evalReassign f name value st

/-- `Evaluator::eval_reassign`: evaluate the value, then require `get` to
find the name somewhere in the chain; on success `set` writes a local
shadow, otherwise an identifier-not-found error value results. -/
def evalReassign (fuel : Nat) (name : Identifier) (value : Expression) (st : EvalState) :
    Except Halt (Option Obj × EvalState) :=
  match fuel with
  | 0 => .error .noFuel
  | f + 1 =>
    match evalExpression f value st with
    | .error h => .error h
    | .ok (none, st') => .ok (none, st')
    | .ok (some v, st') =>
      if (envGet st' st'.cur name.value).isSome then
        .ok (some Obj.Empty, envSet st' st'.cur name.value v)
      else
        .ok (some (Obj.Error ("Identifier not found: " ++ name.value)), st')

/-- `Evaluator::eval_return`. -/
def evalReturn (fuel : Nat) (value : Expression) (st : EvalState) :
    Except Halt (Option Obj × EvalState) :=
  match fuel with
  | 0 => .error .noFuel
  | f + 1 =>
    match evalExpression f value st with
    | .error h => .error h
    | .ok (some v, st') => .ok (some (Obj.Return v), st')
    | .ok (none, st') => .ok (none, st')

/-- `Evaluator::eval_expression`: total dispatch over the expression
variants.  A function literal evaluates to a `Function` value sharing (by
arena reference) the environment active at evaluation time. -/
def evalExpression (fuel : Nat) (e : Expression) (st : EvalState) :
    Except Halt (Option Obj × EvalState) :=
  match fuel with
  | 0 => .error .noFuel
  | f + 1 =>
    match e with
    | .Literal lit => evalLiteral f lit st
    | .PrefixOp _ operator right => evalPrefixExpression f operator right st
    | .InfixOp _ left operator right => evalInfixExpression f left operator right st
    | .If _ condition consequence alternative =>
      evalIfExpression f condition consequence alternative st
    | .Identifier iden => evalIdentifier iden st
    | .FunctionCall _ function arguments => evalFunctionCall f function arguments st
    | .FunctionLiteral _ parameters body =>
      .ok (some (Obj.Function parameters body st.cur), st)
    | .IndexExpression _ left index => evalIndexExpression f left index st
    | .DotAccess _ left right => evalDotAccess f left right st

/-- `Evaluator::eval_dot_notation` (renamed for this environment). -/
def evalDotAccess (fuel : Nat) (left right : Expression) (st : EvalState) :
    Except Halt (Option Obj × EvalState) :=
  match fuel with
  | 0 => .error .noFuel
  | f + 1 =>
    match evalExpression f left st with
    | .error h => .error h
    | .ok (none, st1) => .ok (none, st1)
    | .ok (some l, st1) =>
      match l with
      | Obj.Hash pairs =>
        .ok (some (match hashLookup pairs (renderExpr 1000 right) with
                   | some v => v
                   | none => Obj.Null), st1)
      | Obj.String s =>
        match evalDotExpr right with
        | none => .ok (some (Obj.Error "Use dot notation on strings"), st1)
        | some (name, _, _) => .ok (dotStrBuiltins s name, st1)
      | _ => .ok (some (Obj.Error "Use dot notation properly"), st1)

/-- `Evaluator::eval_index_expression`: both operands are evaluated (no `?`
short-circuit); an absent operand makes the whole expression absent. -/
def evalIndexExpression (fuel : Nat) (left index : Expression) (st : EvalState) :
    Except Halt (Option Obj × EvalState) :=
  match fuel with
  | 0 => .error .noFuel
  | f + 1 =>
    match evalExpression f left st with
    | .error h => .error h
    | .ok (l?, st1) =>
      match evalExpression f index st1 with
      | .error h => .error h
      | .ok (i?, st2) =>
        match l?, i? with
        | some l, some i =>
          match indexOperation l i with
          | .error h => .error h
          | .ok r => .ok (r, st2)
        | _, _ => .ok (none, st2)

/-- `Evaluator::eval_function_call`: callee first (with `?`), then the
argument list, then the application dispatch. -/
def evalFunctionCall (fuel : Nat) (function : Expression) (arguments : List Expression)
    (st : EvalState) : Except Halt (Option Obj × EvalState) :=
  match fuel with
  | 0 => .error .noFuel
  | f + 1 =>
    match evalExpression f function st with
    | .error h => .error h
    | .ok (none, st1) => .ok (none, st1)
    | .ok (some fv, st1) =>
      match evalExpressionList f arguments st1 with
      | .error h => .error h
      | .ok (args, st2) => applyFunction f fv args st2

/-- The application dispatch of `Evaluator::eval_function_call`: arity
check, fresh child frame of the captured environment, body evaluation, and
unconditional restoration of the previous environment. -/
def applyFunction (fuel : Nat) (fv : Obj) (args : List Obj) (st : EvalState) :
    Except Halt (Option Obj × EvalState) :=
  match fuel with
  | 0 => .error .noFuel
  | f + 1 =>
    match fv with
    | Obj.Function parameters body env =>
      if args.length ≠ parameters.length then
        .ok (some (Obj.Error (arityMsg parameters.length args.length)), st)
      else
        match evalBlockLoop f body none (pushCallFrame st env parameters args) with
        | .error h => .error h
        | .ok (obj, st') => .ok (obj, { st' with cur := st.cur })
    | Obj.BuiltinFunction name => .ok (some (applyBuiltin name args), st)
    | other => .ok (some (Obj.Error ("Not a function: " ++ renderObj 1000 other)), st)

/-- `Evaluator::eval_expressions`: each argument is evaluated and an absent
result is replaced by `Null` (`unwrap_or(Object::Null)`). -/
def evalExpressionList (fuel : Nat) (exprs : List Expression) (st : EvalState) :
    Except Halt (List Obj × EvalState) :=
  match fuel with
  | 0 => .error .noFuel
  | f + 1 =>
    match exprs with
    | [] => .ok ([], st)
    | e :: rest =>
      match evalExpression f e st with
      | .error h => .error h
      | .ok (v?, st1) =>
        match evalExpressionList f rest st1 with
        | .error h => .error h
        | .ok (vs, st2) => .ok (v?.getD Obj.Null :: vs, st2)

/-- `Evaluator::eval_if_expression`. -/
def evalIfExpression (fuel : Nat) (condition : Expression) (consequence : List Statement)
    (alternative : Option (List Statement)) (st : EvalState) :
    Except Halt (Option Obj × EvalState) :=
  match fuel with
  | 0 => .error .noFuel
  | f + 1 =>
    match evalExpression f condition st with
    | .error h => .error h
    | .ok (none, st') => .ok (none, st')
    | .ok (some c, st') =>
      match c with
      | Obj.Boolean b =>
        if b then evalBlockLoop f consequence none st'
        else
          match alternative with
          | some alt => evalBlockLoop f alt none st'
          | none => .ok (some Obj.Null, st')
      | _ => .ok (some (Obj.Error "Use if conditionals on booleans"), st')

/-- `Evaluator::eval_infix_expression`: the left operand is evaluated
before the right operand (each with `?`), then the type-paired dispatch
(whose match scrutinee is the `(right, left)` pair, as in the source). -/
def evalInfixExpression (fuel : Nat) (left : Expression) (operator : String)
    (right : Expression) (st : EvalState) : Except Halt (Option Obj × EvalState) :=
  match fuel with
  | 0 => .error .noFuel
  | f + 1 =>
    match evalExpression f left st with
    | .error h => .error h
    | .ok (none, st1) => .ok (none, st1)
    | .ok (some lv, st1) =>
      match evalExpression f right st1 with
      | .error h => .error h
      | .ok (none, st2) => .ok (none, st2)
      | .ok (some rv, st2) =>
        match rv, lv with
        | Obj.Integer r, Obj.Integer l =>
          match evalIntegerInfixExpression l operator r with
          | .error h => .error h
          | .ok res => .ok (res, st2)
        | Obj.Boolean r, Obj.Boolean l => .ok (evalBooleanInfixExpression l operator r, st2)
        | Obj.String r, Obj.String l => .ok (evalStringInfixExpression l operator r, st2)
        | _, _ => .ok (some (Obj.Error "Use infix operators on integers"), st2)

/-- `Evaluator::eval_prefix_expression`. -/
def evalPrefixExpression (fuel : Nat) (operator : String) (right : Expression)
    (st : EvalState) : Except Halt (Option Obj × EvalState) :=
  match fuel with
  | 0 => .error .noFuel
  | f + 1 =>
    match evalExpression f right st with
    | .error h => .error h
    | .ok (none, st') => .ok (none, st')
    | .ok (some r, st') =>
      if operator = "!" then .ok (evalBangOp r, st')
      else if operator = "-" then .ok (evalMinusOp r, st')
      else .ok (some (Obj.Error "Invalid prefix operator"), st')

/-- `Evaluator::eval_literal`. -/
def evalLiteral (fuel : Nat) (lit : Literal) (st : EvalState) :
    Except Halt (Option Obj × EvalState) :=
  match fuel with
  | 0 => .error .noFuel
  | f + 1 =>
    match lit with
    | .Integer i => .ok (some (Obj.Integer i), st)
    | .Boolean b => .ok (some (Obj.Boolean b), st)
    | .String s => .ok (some (Obj.String s), st)
    | .Array elems =>
      match evalArrayElems f elems st with
      | .error h => .error h
      | .ok (none, st') => .ok (none, st')
      | .ok (some vs, st') => .ok (some (Obj.Array vs), st')
    | .Hash pairs => evalHashLiteral f pairs [] st

/-- The element loop of `Evaluator::eval_literal` for arrays: any element
whose evaluation is absent makes the whole array absent (`?`). -/
def evalArrayElems (fuel : Nat) (exprs : List Expression) (st : EvalState) :
    Except Halt (Option (List Obj) × EvalState) :=
  match fuel with
  | 0 => .error .noFuel
  | f + 1 =>
    match exprs with
    | [] => .ok (some [], st)
    | e :: rest =>
      match evalExpression f e st with
      | .error h => .error h
      | .ok (none, st') => .ok (none, st')
      | .ok (some v, st') =>
        match evalArrayElems f rest st' with
        | .error h => .error h
        | .ok (none, st2) => .ok (none, st2)
        | .ok (some vs, st2) => .ok (some (v :: vs), st2)

/-- `Evaluator::eval_hash_literal`: keys must evaluate to strings. -/
def evalHashLiteral (fuel : Nat) (pairs : List (Expression × Expression))
    (acc : List (Obj × Obj)) (st : EvalState) : Except Halt (Option Obj × EvalState) :=
  match fuel with
  | 0 => .error .noFuel
  | f + 1 =>
    match pairs with
    | [] => .ok (some (Obj.Hash acc), st)
    | (k, v) :: rest =>
      match evalExpression f k st with
      | .error h => .error h
      | .ok (none, st1) => .ok (none, st1)
      | .ok (some key, st1) =>
        match key with
        | Obj.String _ =>
          match evalExpression f v st1 with
          | .error h => .error h
          | .ok (none, st2) => .ok (none, st2)
          | .ok (some value, st2) => evalHashLiteral f rest (acc ++ [(key, value)]) st2
        | _ => .ok (some (Obj.Error "Hash keys must be strings"), st1)
end

/-- `Evaluator::eval` on a fresh evaluator, projecting out the result. -/
def runEval (fuel : Nat) (program : Program) : Except Halt (Option Obj) :=
  match evalTopLoop fuel program none initState with
  | .error h => .error h
  | .ok (r, _) => .ok r

/-! ### Shorthand AST constructors for concrete test programs (token
payloads are irrelevant to evaluation) -/

/-- A dummy token for hand-built ASTs. -/
def tk : Token := ⟨.Eof, ""⟩

/-- An integer literal expression. -/
def intLit (i : Int) : Expression := .Literal (.Integer i)

/-- A string literal expression. -/
def strLitE (s : String) : Expression := .Literal (.String s)

/-- An identifier expression. -/
def identE (n : String) : Expression := .Identifier ⟨tk, n⟩

/-- A zero-argument call. -/
def callE (f : Expression) : Expression := .FunctionCall tk f []

/-- A let statement. -/
def letS (n : String) (v : Expression) : Statement := .Let tk ⟨tk, n⟩ v

/-- An expression statement. -/
def exprS (e : Expression) : Statement := .Expression tk e

/-- The array literal `[1, 2, 3]`. -/
def arrLit123 : Expression := .Literal (.Array [intLit 1, intLit 2, intLit 3])

/-- `let x = 1; let f = fn() { x }; let g = fn() { x }; let x = 42; [f(), g()]`:
two closures over the same environment, queried after the captured binding
changed. -/
def closureDemo : Program :=
  [letS "x" (intLit 1),
   letS "f" (.FunctionLiteral tk [] [exprS (identE "x")]),
   letS "g" (.FunctionLiteral tk [] [exprS (identE "x")]),
   letS "x" (intLit 42),
   exprS (.Literal (.Array [callE (identE "f"), callE (identE "g")]))]

/-- A function literal whose body first reports an unresolved identifier
`marker` (a printed error) and then produces the string `"é"`. -/
def markerFn (marker : String) : Expression :=
  .FunctionLiteral tk [] [exprS (identE marker), exprS (strLitE "é")]

/-- An expression that prints the `marker` diagnostic and then fails to
evaluate: calling `markerFn marker` yields `"é"`, and indexing it at `1`
falls through every check of the string-index arm. -/
def markerFailExpr (marker : String) : Expression :=
  .IndexExpression tk (callE (markerFn marker)) (intLit 1)

/-- The state after `markerFailExpr "leftMarker"` has been evaluated on the
fresh evaluator: one extra call frame and the left marker's diagnostic. -/
def leftOnlyState : EvalState :=
  { frames := [⟨[], none⟩, ⟨[], some 0⟩], cur := 0,
    log := ["Identifier not found (eval_identifier): leftMarker"] }

/-- A one-frame state binding `x` to `Integer 1`, for the reassignment
witness. -/
def xBoundState : EvalState :=
  { frames := [⟨[("x", Obj.Integer 1)], none⟩], cur := 0, log := [] }

/-! ### Helper lemmas -/

theorem charUtf8Size_pos (c : Char) : 1 ≤ charUtf8Size c := by
  unfold charUtf8Size
  split_ifs <;> omega

theorem length_le_sum_charUtf8Size (cs : List Char) :
    cs.length ≤ (cs.map charUtf8Size).sum := by
  induction cs with
  | nil => simp
  | cons c rest ih =>
    have := charUtf8Size_pos c
    simp only [List.length_cons, List.map_cons, List.sum_cons]
    omega

theorem length_le_utf8Len (s : String) : s.data.length ≤ utf8Len s :=
  length_le_sum_charUtf8Size s.data

/-! ### The claims -/

/-- C1 (counterexample): the claim "for every terminated token sequence,
parse_program returns a Program" is false: on the terminated token sequence
of `let x = ;` the parser panics (`parse_expression(..).unwrap()` in
`parse_let_statement` unwraps an absent value expression), so no Program is
returned. -/
theorem claim_C1_counterexample :
    runParse 99 [⟨.Keyword .Let, "let"⟩, ⟨.Ident, "x"⟩, ⟨.Assign, "="⟩,
                 ⟨.Semicolon, ";"⟩, ⟨.Eof, ""⟩] = .error .crashed := rfl

/-- C1 (amended): a construct the statement-level dispatch cannot recognize
is silently dropped from the output and parsing continues (first conjunct:
a stray `:` contributes nothing and the following `5` still parses); but
the parser is not total: a malformed return-statement value and an
oversized integer literal (`2^63`, one past `i64::MAX`) each panic, aborting
the parse (second and third conjuncts). -/
theorem claim_C1_amended :
    runParse 99 [⟨.Colon, ":"⟩, ⟨.Number, "5"⟩, ⟨.Eof, ""⟩]
      = .ok [.Expression ⟨.Number, "5"⟩ (.Literal (.Integer 5))] ∧
    runParse 99 [⟨.Keyword .Return, "return"⟩, ⟨.Semicolon, ";"⟩, ⟨.Eof, ""⟩]
      = .error .crashed ∧
    runParse 99 [⟨.Number, "9223372036854775808"⟩, ⟨.Eof, ""⟩]
      = .error .crashed :=
  ⟨rfl, rfl, rfl⟩

/-- C2 (counterexample): the claim "the evaluator evaluates the right
operand before the left operand (so when both operands fail to evaluate,
the failure observed is the right operand's)" is false.  Both operands of
this `+` fail to evaluate, and each prints a distinguishing diagnostic as a
side effect before failing; the evaluation log contains only the LEFT
operand's marker, so the left operand was evaluated (and its failure
observed) first, and the right operand was never evaluated. -/
theorem claim_C2_counterexample :
    evalExpression 30
        (.InfixOp tk (markerFailExpr "leftMarker") "+" (markerFailExpr "rightMarker"))
        initState
      = .ok (none, leftOnlyState) ∧
    leftOnlyState.log ≠ ["Identifier not found (eval_identifier): rightMarker"] :=
  ⟨rfl, by decide⟩

/-- C2 (amended): for every infix expression, the evaluator evaluates the
left operand before the right operand; when the left operand fails to
evaluate, the whole infix expression fails with exactly the left operand's
effects and the right operand is never evaluated. -/
theorem claim_C2_amended :
    ∀ (f : Nat) (tok : Token) (l : Expression) (op : String) (r : Expression)
      (st st1 : EvalState),
      evalExpression f l st = .ok (none, st1) →
      evalExpression (f + 2) (.InfixOp tok l op r) st = .ok (none, st1) := by
  intro f tok l op r st st1 h
  simp only [evalExpression, evalInfixExpression, h]

/-- C2 (witness): the amended theorem applied to the concrete
counterexample operands. -/
theorem claim_C2_witness :
    evalExpression 27
        (.InfixOp tk (markerFailExpr "leftMarker") "+" (markerFailExpr "rightMarker"))
        initState
      = .ok (none, leftOnlyState) :=
  claim_C2_amended 25 tk (markerFailExpr "leftMarker") "+"
    (markerFailExpr "rightMarker") initState leftOnlyState rfl

/-- C3: array indexing.  For every array value `arr` and integer `i`:
`0 ≤ i < n` yields the `i`-th element; `i ≥ n` yields `Null` (not an
error); `-n ≤ i ≤ -1` counts from the end (`-1` is the last element).
Concretely, `[1,2,3][0]` evaluates to `Integer 1`, `[1,2,3][-1]` to
`Integer 3`, and `[1,2,3][3]` to `Null`. -/
theorem claim_C3 :
    (∀ (arr : List Obj) (i : Int),
       (0 ≤ i → i < (arr.length : Int) →
          arrayIndexOp arr i = .ok (arr.get? i.toNat)) ∧
       ((arr.length : Int) ≤ i → arrayIndexOp arr i = .ok (some Obj.Null)) ∧
       (-(arr.length : Int) ≤ i → i ≤ -1 →
          arrayIndexOp arr i = .ok (arr.get? (arr.length - i.natAbs)))) ∧
    runEval 99 [exprS (.IndexExpression tk arrLit123 (intLit 0))]
      = .ok (some (Obj.Integer 1)) ∧
    runEval 99 [exprS (.IndexExpression tk arrLit123 (intLit (-1)))]
      = .ok (some (Obj.Integer 3)) ∧
    runEval 99 [exprS (.IndexExpression tk arrLit123 (intLit 3))]
      = .ok (some Obj.Null) := by
  refine ⟨?_, rfl, rfl, rfl⟩
  intro arr i
  refine ⟨?_, ?_, ?_⟩
  · intro h0 hlt
    have hne : ¬ (i ≤ -1) := by omega
    have hge : ¬ ((arr.length : Int) ≤ i) := by omega
    have htn : i.toNat < arr.length := by omega
    have hv := List.get?_eq_get htn
    simp only [arrayIndexOp, if_neg hne, if_neg hge, if_pos h0, hv]
  · intro hge
    have hne : ¬ (i ≤ -1) := by omega
    simp only [arrayIndexOp, if_neg hne, if_pos hge]
  · intro hlb hub
    have h1 : i.natAbs - 1 < arr.length := by omega
    have h2 : arr.length - 1 - (i.natAbs - 1) = arr.length - i.natAbs := by omega
    have h3 : arr.length - i.natAbs < arr.length := by omega
    have hv := List.get?_eq_get h3
    simp only [arrayIndexOp, if_pos hub, nthBack, if_pos h1, h2, hv]

/-- C3 (witness): the general parts applied at a concrete array and
indices. -/
theorem claim_C3_witness :
    arrayIndexOp [Obj.Integer 10, Obj.Integer 20] 1 = .ok (some (Obj.Integer 20)) ∧
    arrayIndexOp [Obj.Integer 10, Obj.Integer 20] 2 = .ok (some Obj.Null) ∧
    arrayIndexOp [Obj.Integer 10, Obj.Integer 20] (-1) = .ok (some (Obj.Integer 20)) :=
  ⟨((claim_C3.1 [Obj.Integer 10, Obj.Integer 20] 1).1 (by decide) (by decide)).trans rfl,
   (claim_C3.1 [Obj.Integer 10, Obj.Integer 20] 2).2.1 (by decide),
   ((claim_C3.1 [Obj.Integer 10, Obj.Integer 20] (-1)).2.2 (by decide) (by decide)).trans rfl⟩

/-- C4: closures capture the defining environment by shared reference, not
by snapshot.  First conjunct: evaluating a function literal returns a
`Function` value holding a reference to the currently active environment
and leaves the state (in particular that environment) untouched — no copy
is made.  Second conjunct: in
`let x = 1; let f = fn() { x }; let g = fn() { x }; let x = 42; [f(), g()]`
both closures, sharing the root environment, observe the later mutation of
`x` and return `42`. -/
theorem claim_C4 :
    (∀ (f : Nat) (tok : Token) (ps : List Identifier) (body : List Statement)
       (st : EvalState),
       evalExpression (f + 1) (.FunctionLiteral tok ps body) st
         = .ok (some (Obj.Function ps body st.cur), st)) ∧
    runEval 99 closureDemo = .ok (some (Obj.Array [Obj.Integer 42, Obj.Integer 42])) :=
  ⟨fun _ _ _ _ _ => rfl, rfl⟩

/-- C5: the binding-power ladder is strictly increasing in the order
Lowest < Equals < LessGreater < Sum < Product < Prefix < Call < Index < Dot
(first conjunct), and for all identifier names `a`, `b`, `c` the parser
binds `a.b[0]` as `(a.b)[0]`, `a + b * c` as `a + (b * c)`, and `-a.b` as
`-(a.b)`. -/
theorem claim_C5 :
    (precLt .Lowest .Equals = true ∧ precLt .Equals .LessGreater = true ∧
     precLt .LessGreater .Sum = true ∧ precLt .Sum .Product = true ∧
     precLt .Product .PrefixOp = true ∧ precLt .PrefixOp .Call = true ∧
     precLt .Call .Index = true ∧ precLt .Index .Dot = true) ∧
    (∀ a b : String,
       runParse 99 [⟨.Ident, a⟩, ⟨.Period, "."⟩, ⟨.Ident, b⟩, ⟨.LBracket, "["⟩,
                    ⟨.Number, "0"⟩, ⟨.RBracket, "]"⟩, ⟨.Eof, ""⟩]
         = .ok [.Expression ⟨.RBracket, "]"⟩
             (.IndexExpression ⟨.RBracket, "]"⟩
               (.DotAccess ⟨.Ident, b⟩
                 (.Identifier ⟨⟨.Ident, a⟩, a⟩)
                 (.Identifier ⟨⟨.Ident, b⟩, b⟩))
               (.Literal (.Integer 0)))]) ∧
    (∀ a b c : String,
       runParse 99 [⟨.Ident, a⟩, ⟨.Add, "+"⟩, ⟨.Ident, b⟩, ⟨.Mul, "*"⟩,
                    ⟨.Ident, c⟩, ⟨.Eof, ""⟩]
         = .ok [.Expression ⟨.Ident, c⟩
             (.InfixOp ⟨.Ident, c⟩
               (.Identifier ⟨⟨.Ident, a⟩, a⟩)
               "+"
               (.InfixOp ⟨.Ident, c⟩
                 (.Identifier ⟨⟨.Ident, b⟩, b⟩)
                 "*"
                 (.Identifier ⟨⟨.Ident, c⟩, c⟩)))]) ∧
    (∀ a b : String,
       runParse 99 [⟨.Sub, "-"⟩, ⟨.Ident, a⟩, ⟨.Period, "."⟩, ⟨.Ident, b⟩, ⟨.Eof, ""⟩]
         = .ok [.Expression ⟨.Ident, b⟩
             (.PrefixOp ⟨.Ident, b⟩
               "-"
               (.DotAccess ⟨.Ident, b⟩
                 (.Identifier ⟨⟨.Ident, a⟩, a⟩)
                 (.Identifier ⟨⟨.Ident, b⟩, b⟩)))]) := by
  refine ⟨by decide, ?_, ?_, ?_⟩
  · intro a b; rfl
  · intro a b c; rfl
  · intro a b; rfl

/-- C6: the top-level statement loop.  (a) the first statement whose result
is a `Return` wrapper stops the loop and its unwrapped payload is returned
immediately; (b) a statement whose result is an `Error` value has its
message reported as a side effect (appended to the log) and evaluation of
the remaining sibling statements continues; (c) a statement that fails to
evaluate at all stops the loop and an `Error` value describing that
statement is returned immediately; (d) any other result becomes the running
result and the loop continues in order. -/
theorem claim_C6 :
    (∀ (f : Nat) (stmt : Statement) (rest : List Statement) (res : Option Obj)
       (st st' : EvalState) (o : Obj),
       evalStatement f stmt st = .ok (some (Obj.Return o), st') →
       evalTopLoop (f + 1) (stmt :: rest) res st = .ok (some o, st')) ∧
    (∀ (f : Nat) (stmt : Statement) (rest : List Statement) (res : Option Obj)
       (st st' : EvalState) (m : String),
       evalStatement f stmt st = .ok (some (Obj.Error m), st') →
       evalTopLoop (f + 1) (stmt :: rest) res st
         = evalTopLoop f rest res { st' with log := st'.log ++ [m] }) ∧
    (∀ (f : Nat) (stmt : Statement) (rest : List Statement) (res : Option Obj)
       (st st' : EvalState),
       evalStatement f stmt st = .ok (none, st') →
       evalTopLoop (f + 1) (stmt :: rest) res st
         = .ok (some (Obj.Error (couldNotEvalMsg stmt)), st')) ∧
    (∀ (f : Nat) (stmt : Statement) (rest : List Statement) (res : Option Obj)
       (st st' : EvalState) (v : Obj),
       evalStatement f stmt st = .ok (some v, st') →
       (∀ o, v ≠ Obj.Return o) → (∀ m, v ≠ Obj.Error m) →
       evalTopLoop (f + 1) (stmt :: rest) res st = evalTopLoop f rest (some v) st') := by
  refine ⟨?_, ?_, ?_, ?_⟩
  · intro f stmt rest res st st' o h
    simp only [evalTopLoop, h]
  · intro f stmt rest res st st' m h
    simp only [evalTopLoop, h]
  · intro f stmt rest res st st' h
    simp only [evalTopLoop, h]
  · intro f stmt rest res st st' v h hR hE
    cases v with
    | Return o => exact absurd rfl (hR o)
    | Error m => exact absurd rfl (hE m)
    | _ => simp only [evalTopLoop, h]

/-- C6 (witness): the four loop behaviours at concrete statements.  The
`rest` statement `9` is never reached in the first and third conjuncts. -/
theorem claim_C6_witness :
    evalTopLoop 11 [.Return tk (intLit 5), exprS (intLit 9)] none initState
      = .ok (some (Obj.Integer 5), initState) ∧
    evalTopLoop 11 [exprS (identE "zzz"), exprS (intLit 9)] none initState
      = evalTopLoop 10 [exprS (intLit 9)] none
          { initState with
            log := initState.log ++ ["Identifier not found (eval_identifier): zzz"] } ∧
    evalTopLoop 11 [exprS (.IndexExpression tk (strLitE "é") (intLit 1)), exprS (intLit 9)]
        none initState
      = .ok (some (Obj.Error
          (couldNotEvalMsg (exprS (.IndexExpression tk (strLitE "é") (intLit 1))))),
          initState) ∧
    evalTopLoop 11 [exprS (intLit 7), exprS (intLit 9)] none initState
      = evalTopLoop 10 [exprS (intLit 9)] (some (Obj.Integer 7)) initState :=
  ⟨claim_C6.1 10 (.Return tk (intLit 5)) [exprS (intLit 9)] none initState initState
      (Obj.Integer 5) rfl,
   claim_C6.2.1 10 (exprS (identE "zzz")) [exprS (intLit 9)] none initState initState
      "Identifier not found (eval_identifier): zzz" rfl,
   claim_C6.2.2.1 10 (exprS (.IndexExpression tk (strLitE "é") (intLit 1)))
      [exprS (intLit 9)] none initState initState rfl,
   claim_C6.2.2.2 10 (exprS (intLit 7)) [exprS (intLit 9)] none initState initState
      (Obj.Integer 7) rfl (fun _ => by simp) (fun _ => by simp)⟩

/-- C7 (counterexample): the claim "String[i] mirrors the array rule over
Unicode scalar values ... an index at or beyond the string's length yields
Null — for every string, including multi-byte scalar values" is false.
`"é"` has one scalar value, so index `1` is at-or-beyond its length and the
claim demands `Null`; instead the evaluation falls through every check
(the at-or-beyond test compares against the UTF-8 byte length 2, and
`chars().nth(1)` finds nothing) and the expression fails to evaluate with
an absent result. -/
theorem claim_C7_counterexample :
    indexOperation (Obj.String "é") (Obj.Integer 1) = .ok none ∧
    indexOperation (Obj.String "é") (Obj.Integer 1) ≠ .ok (some Obj.Null) := by
  refine ⟨rfl, ?_⟩
  intro h
  have h0 : indexOperation (Obj.String "é") (Obj.Integer 1) = .ok none := rfl
  rw [h0] at h
  simp at h

/-- C7 (amended): string indexing follows the array rule over Unicode
scalar values for in-range and negative indices, but the at-or-beyond-
length check compares against the UTF-8 byte length: for every string `s`
with scalar count `n` and byte length `m` (so `n ≤ m`), `0 ≤ i < n` yields
the single-character string at scalar position `i`; `i ≥ m` yields `Null`;
`-n ≤ i ≤ -1` counts from the end; and for `n ≤ i < m` (possible only when
`s` has a multi-byte scalar) the expression fails to evaluate (absent
result) instead of yielding `Null`.  For strings whose scalar count equals
their byte length (e.g. all-ASCII) the original rule holds. -/
theorem claim_C7_amended :
    ∀ (s : String) (i : Int),
      (0 ≤ i → i < (s.data.length : Int) →
         stringIndexOp s i
           = (s.data.get? i.toNat).map (fun c => Obj.String (String.mk [c]))) ∧
      ((utf8Len s : Int) ≤ i → stringIndexOp s i = some Obj.Null) ∧
      (-(s.data.length : Int) ≤ i → i ≤ -1 →
         stringIndexOp s i
           = (s.data.get? (s.data.length - i.natAbs)).map
               (fun c => Obj.String (String.mk [c]))) ∧
      ((s.data.length : Int) ≤ i → i < (utf8Len s : Int) → stringIndexOp s i = none) := by
  intro s i
  have hnm : s.data.length ≤ utf8Len s := length_le_utf8Len s
  refine ⟨?_, ?_, ?_, ?_⟩
  · intro h0 hlt
    have hne : ¬ (i ≤ -1) := by omega
    have hge : ¬ ((utf8Len s : Int) ≤ i) := by omega
    have htn : i.toNat < s.data.length := by omega
    have hv := List.get?_eq_get htn
    simp only [stringIndexOp, if_neg hne, if_neg hge, if_pos h0, hv, Option.map_some']
  · intro hge
    have hne : ¬ (i ≤ -1) := by omega
    simp only [stringIndexOp, if_neg hne, if_pos hge]
  · intro hlb hub
    have h1 : i.natAbs - 1 < s.data.length := by omega
    have h2 : s.data.length - 1 - (i.natAbs - 1) = s.data.length - i.natAbs := by omega
    have h3 : s.data.length - i.natAbs < s.data.length := by omega
    have hv := List.get?_eq_get h3
    simp only [stringIndexOp, if_pos hub, nthBack, if_pos h1, h2, hv, Option.map_some']
  · intro hn hm
    have hne : ¬ (i ≤ -1) := by omega
    have hge : ¬ ((utf8Len s : Int) ≤ i) := by omega
    have h0 : (0 : Int) ≤ i := by omega
    have hv : s.data.get? i.toNat = none := List.get?_eq_none.mpr (by omega)
    simp only [stringIndexOp, if_neg hne, if_neg hge, if_pos h0, hv]

/-- C7 (witness): the amended theorem applied concretely: `"ab"[1]` is
`"b"`, `"é"[2]` is `Null` (2 is the byte length), `"ab"[-1]` is `"b"`, and
`"é"[1]` (scalar count 1, byte length 2) is absent. -/
theorem claim_C7_witness :
    stringIndexOp "ab" 1 = some (Obj.String "b") ∧
    stringIndexOp "é" 2 = some Obj.Null ∧
    stringIndexOp "ab" (-1) = some (Obj.String "b") ∧
    stringIndexOp "é" 1 = none :=
  ⟨((claim_C7_amended "ab" 1).1 (by decide) (by decide)).trans rfl,
   (claim_C7_amended "é" 2).2.1 (by decide),
   ((claim_C7_amended "ab" (-1)).2.2.1 (by decide) (by decide)).trans rfl,
   (claim_C7_amended "é" 1).2.2.2 (by decide) (by decide)⟩

/-- C8: reassignment.  With the value expression already evaluated, the
evaluator requires `get` to find the name somewhere in the environment
chain: if it does not, an identifier-not-found `Error` value results (second
conjunct); if it does, `set` writes the new value into the local frame of
the current environment as a new shadow (first conjunct), and `envSet`
touches only that local frame — it prepends the binding there and leaves
every other frame, in particular any ancestor holding the old binding,
unchanged (third conjunct). -/
theorem claim_C8 :
    (∀ (f : Nat) (tok : Token) (name : Identifier) (vexpr : Expression) (v : Obj)
       (st st1 : EvalState) (w : Obj),
       evalExpression f vexpr st = .ok (some v, st1) →
       envGet st1 st1.cur name.value = some w →
       evalStatement (f + 2) (.ReAssign tok name vexpr) st
         = .ok (some Obj.Empty, envSet st1 st1.cur name.value v)) ∧
    (∀ (f : Nat) (tok : Token) (name : Identifier) (vexpr : Expression) (v : Obj)
       (st st1 : EvalState),
       evalExpression f vexpr st = .ok (some v, st1) →
       envGet st1 st1.cur name.value = none →
       evalStatement (f + 2) (.ReAssign tok name vexpr) st
         = .ok (some (Obj.Error ("Identifier not found: " ++ name.value)), st1)) ∧
    (∀ (st : EvalState) (e : Nat) (n : String) (v : Obj),
       (envSet st e n v).cur = st.cur ∧
       (envSet st e n v).frames.get? e = (st.frames.get? e).map (fun fr => frameSet fr n v) ∧
       (∀ j, j ≠ e → (envSet st e n v).frames.get? j = st.frames.get? j)) := by
  refine ⟨?_, ?_, ?_⟩
  · intro f tok name vexpr v st st1 w h1 h2
    simp only [evalStatement, evalReassign, h1, h2, Option.isSome_some, if_true]
  · intro f tok name vexpr v st st1 h1 h2
    simp only [evalStatement, evalReassign, h1, h2, Option.isSome_none, if_false,
      Bool.false_eq_true]
  · intro st e n v
    cases hget : st.frames.get? e with
    | none =>
      have henv : envSet st e n v = st := by
        unfold envSet; rw [hget]
      refine ⟨by rw [henv], by rw [henv, hget]; rfl, fun j _ => by rw [henv]⟩
    | some fr =>
      obtain ⟨hlt, -⟩ := List.get?_eq_some.mp hget
      have henv : envSet st e n v
          = { st with frames := st.frames.set e (frameSet fr n v) } := by
        unfold envSet; rw [hget]
      refine ⟨by rw [henv], ?_, ?_⟩
      · rw [henv, Option.map_some']
        exact List.get?_set_eq_of_lt _ hlt
      · intro j hj
        rw [henv]
        exact List.get?_set_ne _ _ (Ne.symm hj)

/-- C8 (witness): reassigning a bound `x` succeeds with a local shadow;
reassigning an unbound `y` yields the identifier-not-found error. -/
theorem claim_C8_witness :
    evalStatement 7 (.ReAssign tk ⟨tk, "x"⟩ (intLit 7)) xBoundState
      = .ok (some Obj.Empty, envSet xBoundState 0 "x" (Obj.Integer 7)) ∧
    evalStatement 7 (.ReAssign tk ⟨tk, "y"⟩ (intLit 7)) xBoundState
      = .ok (some (Obj.Error ("Identifier not found: " ++ "y")), xBoundState) :=
  ⟨claim_C8.1 5 tk ⟨tk, "x"⟩ (intLit 7) (Obj.Integer 7) xBoundState xBoundState
      (Obj.Integer 1) rfl rfl,
   claim_C8.2.1 5 tk ⟨tk, "y"⟩ (intLit 7) (Obj.Integer 7) xBoundState xBoundState rfl rfl⟩

/-- C9: function-call frame discipline.  First conjunct: calling a
user-defined `Function` value with an argument count different from the
parameter count yields an arity `Error` value (never a panic) and leaves
the state untouched.  Second conjunct: on an arity match the evaluator
switches to a freshly allocated child frame of the function's captured
environment with the parameters bound positionally.  Third conjunct: the
body is evaluated in that frame and the previously active environment is
restored afterwards regardless of the body's outcome `obj` (a value, a
`Return` wrapper, an `Error` value, or `none` — the block loop's
could-not-evaluate error also flows through the same restoring branch). -/
theorem claim_C9 :
    (∀ (f : Nat) (ps : List Identifier) (body : List Statement) (env : Nat)
       (args : List Obj) (st : EvalState),
       args.length ≠ ps.length →
       applyFunction (f + 1) (Obj.Function ps body env) args st
         = .ok (some (Obj.Error (arityMsg ps.length args.length)), st)) ∧
    (∀ (st : EvalState) (env : Nat) (ps : List Identifier) (args : List Obj),
       pushCallFrame st env ps args
         = { st with frames := st.frames ++ [⟨bindParams ps args, some env⟩],
                     cur := st.frames.length }) ∧
    (∀ (f : Nat) (ps : List Identifier) (body : List Statement) (env : Nat)
       (args : List Obj) (st : EvalState) (obj : Option Obj) (st' : EvalState),
       args.length = ps.length →
       evalBlockLoop f body none (pushCallFrame st env ps args) = .ok (obj, st') →
       applyFunction (f + 1) (Obj.Function ps body env) args st
         = .ok (obj, { st' with cur := st.cur })) := by
  refine ⟨?_, ?_, ?_⟩
  · intro f ps body env args st h
    simp only [applyFunction, if_pos h]
  · intro st env ps args
    rfl
  · intro f ps body env args st obj st' h hb
    simp only [applyFunction, if_neg (not_not_intro h), hb]

/-- C9 (witness): a one-parameter identity function called with two
arguments errs; called with one argument it evaluates its body in the fresh
frame and restores the caller's environment. -/
theorem claim_C9_witness :
    applyFunction 9 (Obj.Function [⟨tk, "x"⟩] [exprS (identE "x")] 0)
        [Obj.Integer 1, Obj.Integer 2] initState
      = .ok (some (Obj.Error (arityMsg 1 2)), initState) ∧
    applyFunction 9 (Obj.Function [⟨tk, "x"⟩] [exprS (identE "x")] 0)
        [Obj.Integer 5] initState
      = .ok (some (Obj.Integer 5),
             { (pushCallFrame initState 0 [⟨tk, "x"⟩] [Obj.Integer 5]) with
               cur := initState.cur }) :=
  ⟨claim_C9.1 8 [⟨tk, "x"⟩] [exprS (identE "x")] 0 [Obj.Integer 1, Obj.Integer 2]
      initState (by decide),
   claim_C9.2.2 8 [⟨tk, "x"⟩] [exprS (identE "x")] 0 [Obj.Integer 5] initState
      (some (Obj.Integer 5)) (pushCallFrame initState 0 [⟨tk, "x"⟩] [Obj.Integer 5])
      rfl rfl⟩

/-- C10: integer division is unguarded.  For every pair of integer
operands, `a / b` with `b = 0` panics (host division-by-zero) instead of
producing any value — the dispatch `eval_integer_infix_expression` crashes
(first conjunct), and so does the whole evaluation of the program `1 / 0`
(second conjunct); the embedding of `/` is total only under `b ≠ 0`. -/
theorem claim_C10 :
    (∀ l r : Int, r = 0 → evalIntegerInfixExpression l "/" r = .error .crashed) ∧
    runEval 99 [exprS (.InfixOp tk (intLit 1) "/" (intLit 0))] = .error .crashed := by
  refine ⟨?_, rfl⟩
  intro l r h
  subst h
  simp [evalIntegerInfixExpression]

/-- C10 (witness): the division theorem applied at `1 / 0`. -/
theorem claim_C10_witness :
    evalIntegerInfixExpression 1 "/" 0 = .error .crashed :=
  claim_C10.1 1 0 rfl

end Monki
